import Mathlib

/-!
Verification development for the ep3gen EPUB3 generator: a shallow embedding
of the directive-driven structural parser, section builder, metadata
extractor and NAV-partitioner (from `internal/gen/gen.go`,
`internal/gen/input_buffer.go` and the `main` driver), together with
theorems settling the behavioural claims about them.

Go strings are modelled as Lean `String`; all Go byte-index operations
(`strings.Index`, `strings.HasPrefix`, slicing `s[lo:hi]`, `strings.Cut`,
`strings.Split`) are modelled on the character list `s.data`, which agrees
with the Go byte view on the ASCII inputs the parser manipulates.  A Go
slice expression that would panic (bounds violation) is modelled as
`none` / a dedicated error value, as are the `panic`/`os.Exit` calls.
-/

namespace Ep3gen

/-- Fatal error kinds of the conversion (each Go `panic`/`os.Exit` site). -/
inductive PError where
  | unexpectedEndOfInput
  | malformedMetadata
  | headingFormatError
  | titlePageDirectiveExpected
  | copyrightDirectiveExpected
  | duplicateDirective (kind : String)
  | noChapterSpecified
  | unknownDirective (line : String)
  | unsupportedImageExtension
  | indexOutOfRange
  | sliceOutOfRange
  deriving DecidableEq, Repr

/-- `SectionData` from `internal/gen/input_buffer.go`. -/
structure SectionData where
  ID       : String
  EpubType : String
  Heading  : String
  deriving DecidableEq, Repr

/-- `ImageData` from `internal/gen/input_buffer.go` (caption unused by the core). -/
structure ImageData where
  FileName  : String
  MediaType : String
  deriving DecidableEq, Repr

/-- Go `strings.HasPrefix s pre`. -/
def goHasPrefix (s pre : String) : Bool :=
  pre.data.isPrefixOf s.data

/-- First index at which `sub` occurs in `s` (Go `strings.Index`, `none` for -1). -/
def strFind (s sub : List Char) : Option Nat :=
  if sub.isPrefixOf s then some 0
  else
    match s with
    | [] => none
    | _ :: rest => (strFind rest sub).map (· + 1)

/-- Go `strings.Index` on strings. -/
def goIndex (s sub : String) : Option Nat :=
  strFind s.data sub.data

/-- Go slice `s[lo:]`; `none` models the bounds panic when `lo > len(s)`. -/
def goSliceFrom (s : String) (lo : Nat) : Option String :=
  if lo ≤ s.data.length then some (String.mk (s.data.drop lo)) else none

/-- Go slice `s[:hi]`; `none` models the bounds panic when `hi > len(s)`. -/
def goSliceTo (s : String) (hi : Nat) : Option String :=
  if hi ≤ s.data.length then some (String.mk (s.data.take hi)) else none

/-- Go slice `s[lo:hi]`; `none` models the bounds panic. -/
def goSlice (s : String) (lo hi : Nat) : Option String :=
  if lo ≤ hi ∧ hi ≤ s.data.length then
    some (String.mk ((s.data.drop lo).take (hi - lo)))
  else none

/-- Go `strings.Cut s sep`: `(before, after, found)` at the first occurrence. -/
def goCut (s sep : String) : String × String × Bool :=
  match strFind s.data sep.data with
  | some i => (String.mk (s.data.take i), String.mk (s.data.drop (i + sep.data.length)), true)
  | none => (s, "", false)

/-- Go `strings.Split` for a single-character separator, on char lists. -/
def splitOnChar (c : Char) : List Char → List (List Char)
  | [] => [[]]
  | a :: rest =>
    match splitOnChar c rest with
    | [] => [[a]]
    | h :: t => if a = c then [] :: h :: t else (a :: h) :: t

/-- Go `strings.Split s "."`. -/
def goSplitDot (s : String) : List String :=
  (splitOnChar '.' s.data).map String.mk

/-- Go `strings.Split s ","`. -/
def goSplitComma (s : String) : List String :=
  (splitOnChar ',' s.data).map String.mk

/-- `extractHeading` from the main driver: extracts the plain-text heading
from a `<h1>`/`<h2>`/`<h3>` line (`heading = line[pos : len(line)-5]` where
`pos` is one past the first `>`), mapping the sentinel `&#160;` to the
empty string.  `none` models the `panic` on a non-heading line and the Go
slice-bounds panic on a degenerate heading line. -/
def extractHeading (line : String) : Option String :=
  if goHasPrefix line "<h1" || goHasPrefix line "<h2" || goHasPrefix line "<h3" then
    let pos : Nat :=
      match goIndex line ">" with
      | some i => i + 1
      | none => 0
    if line.data.length < 5 then none
    else
      match goSlice line pos (line.data.length - 5) with
      | none => none
      | some heading => some (if heading = "&#160;" then "" else heading)
  else none

/-- Attribute-dictionary update modelling the Go map assignment
`attributes[name] = content` (last write wins). -/
def attrSet (m : List (String × String)) (k v : String) : List (String × String) :=
  (k, v) :: m.filter (fun p => p.1 ≠ k)

/-- Body of the `LoadAttributes` scan (`internal/gen/input_buffer.go`) for a
single non-`</head>` line: a line starting with `<meta` is parsed for its
`name="…"` and `content="…"` components; a line without the `name=` marker
(meta or not) is skipped silently, leaving the dictionary unchanged. -/
def metaStep (line : String) (attrs : List (String × String)) :
    Except PError (List (String × String)) :=
  if goHasPrefix line "<meta" then
    match goIndex line "name=" with
    | none => .ok attrs
    | some i =>
      match goSliceFrom line (i + 6) with
      | none => .error .sliceOutOfRange
      | some nameRest =>
        match goIndex nameRest "\"" with
        | none => .error .malformedMetadata
        | some j =>
          match goSliceTo nameRest j with
          | none => .error .sliceOutOfRange
          | some name =>
            match goIndex line "content=" with
            | none => .error .malformedMetadata
            | some k =>
              match goSliceFrom line (k + 9) with
              | none => .error .sliceOutOfRange
              | some contentRest =>
                match goIndex contentRest "\"" with
                | none => .error .malformedMetadata
                | some m =>
                  match goSliceTo contentRest m with
                  | none => .error .sliceOutOfRange
                  | some content =>
                    .ok (if name ≠ "" then attrSet attrs name content else attrs)
  else .ok attrs

/-- `LoadAttributes`: advance line by line until `</head>`, feeding each line
to `metaStep`.  Returns the dictionary and the unconsumed lines; running out
of lines is the `UnexpectedEndOfInput` panic of `NextLine`. -/
def loadAttributes : List String → List (String × String) →
    Except PError (List (String × String) × List String)
  | [], _ => .error .unexpectedEndOfInput
  | l :: ls, attrs =>
    if l = "</head>" then .ok (attrs, ls)
    else
      match metaStep l attrs with
      | .error e => .error e
      | .ok attrs' => loadAttributes ls attrs'

/-- `PartSectionData` from `internal/gen/gen.go`. -/
structure PartSectionData where
  Part     : SectionData
  Chapters : List SectionData
  deriving DecidableEq, Repr

/-- Go zero value of `SectionData` (`var section SectionData`). -/
def zeroSection : SectionData := ⟨"", "", ""⟩

/-- Go slice `sections[lo:hi]` on a section list (all uses inside the
partitioner have `lo ≤ hi ≤ len`, where `take`/`drop` agree with Go). -/
def goSliceList (l : List SectionData) (lo hi : Nat) : List SectionData :=
  (l.drop lo).take (hi - lo)

/-- The opening `for index, section = range b.sections { if part/chapter break }`
of `GenNAVFile`, on a non-empty tail: returns the Go `(index, section)` values
after the loop (first body-matter section, or the last element when none). -/
def rangeScanAux (i : Nat) : List SectionData → Nat × SectionData
  | [] => (i, zeroSection)
  | s :: rest =>
    if s.EpubType = "part" ∨ s.EpubType = "chapter" then (i, s)
    else
      match rest with
      | [] => (i, s)
      | _ :: _ => rangeScanAux (i + 1) rest

/-- Values of `index`/`section` after the range loop of `GenNAVFile`
(zero values when the section list is empty). -/
def rangeScan : List SectionData → Nat × SectionData
  | [] => (0, zeroSection)
  | l => rangeScanAux 0 l

/-- The parts branch of `GenNAVFile`: walks `sections` from `index`, opening a
group at each `part`, extending it over the following `chapter`s, and closing
out on the first other kind.  `remaining` is `sections.drop index`, so the
`[]` case is exactly the unchecked `b.sections[index]` indexing one past the
end — the Go index-out-of-range panic, modelled as `none`. -/
def partsScanAux (sections : List SectionData) :
    List SectionData → Nat → Bool → SectionData → Nat → List PartSectionData →
    Option (List PartSectionData × Nat)
  | [], _, _, _, _, _ => none
  | s :: rest, index, firstTime, currPart, startIndex, acc =>
    if s.EpubType = "part" then
      if firstTime then
        partsScanAux sections rest (index + 1) false s (index + 1) []
      else
        partsScanAux sections rest (index + 1) false s (index + 1)
          (acc ++ [⟨currPart, goSliceList sections startIndex index⟩])
    else if s.EpubType ≠ "chapter" then
      some (acc ++ [⟨currPart, goSliceList sections startIndex index⟩], index)
    else
      partsScanAux sections rest (index + 1) firstTime currPart startIndex acc

/-- The no-parts branch of `GenNAVFile`:
`for ; sections[index].EpubType != "chapter"; index++ { break }`.
The loop body is a bare `break`, so whether the condition holds or not the
loop evaluates `sections[index]` once (panicking when out of range) and
leaves `index` unchanged; `chapterSections = sections[index:index]`. -/
def chaptersScan (sections : List SectionData) (index : Nat) :
    Option (List SectionData × Nat) :=
  if index < sections.length then
    some (goSliceList sections index index, index)
  else none

/-- Result record of the partitioning performed by `GenNAVFile` (the fields
handed to the NAV template). -/
structure NavData where
  FrontSections   : List SectionData
  HasParts        : Bool
  PartSections    : List PartSectionData
  ChapterSections : List SectionData
  BackSections    : List SectionData
  deriving DecidableEq, Repr

/-- The Section Partitioner: the portion of `GenNAVFile`
(`internal/gen/gen.go`, identical in the older `gen.go`) that reshapes the
flat section list into front sections, part groups or a flat chapter list,
and back sections.  `none` models an index-out-of-range panic. -/
def genNavPartition (sections : List SectionData) : Option NavData :=
  let (index, sect) := rangeScan sections
  let frontSections := sections.take index
  let hasParts := sect.EpubType = "part"
  if hasParts then
    match partsScanAux sections (sections.drop index) index true zeroSection 0 [] with
    | none => none
    | some (partSections, index') =>
      some ⟨frontSections, true, partSections, [], sections.drop index'⟩
  else
    match chaptersScan sections index with
    | none => none
    | some (chapterSections, index') =>
      some ⟨frontSections, false, [], chapterSections, sections.drop index'⟩

/-- Go `fmt.Sprintf "%03d" n`: decimal, left-padded with zeros to width 3. -/
def pad3 (n : Nat) : String :=
  let s := toString n
  String.mk (List.replicate (3 - s.length) '0') ++ s

/-- Parser state during body processing: the current line, the remaining
lines, and the growing `sections`/`guides` lists plus the running section
counter of `InputBuffer`. -/
structure PState where
  curr     : String
  rest     : List String
  sections : List SectionData
  guides   : List SectionData
  counter  : Nat
  deriving DecidableEq, Repr

/-- The body-collection loop shared by `GenFrontMatterSection`,
`GenBodyMatterSection`, `GenBackMatterSection` and `GenCopyrightSection`:
starting after the current line has been buffered, advance until the new
current line starts with `<!--`.  Returns the new `(curr, rest)`;
running out of lines is the `NextLine` panic. -/
def skipBody : List String → Except PError (String × List String)
  | [] => .error .unexpectedEndOfInput
  | l :: ls => if goHasPrefix l "<!--" then .ok (l, ls) else skipBody ls

/-- One directive case of the three main loops: advance to the heading line,
extract the heading (falling back to `defaultHeading` when the extract is
empty, for the directive kinds that have a default label), allocate the next
section id (`NewSectionData` + `AddSection`), and consume the section body.
Returns the new state and the created section. -/
def processSection (epubType : String) (defaultHeading : Option String)
    (st : PState) : Except PError (PState × SectionData) :=
  match st.rest with
  | [] => .error .unexpectedEndOfInput
  | hl :: ls =>
    match extractHeading hl with
    | none => .error .headingFormatError
    | some h0 =>
      let heading :=
        match defaultHeading with
        | some d => if h0 = "" then d else h0
        | none => h0
      let sec : SectionData := ⟨"section" ++ pad3 (st.counter + 1), epubType, heading⟩
      match skipBody ls with
      | .error e => .error e
      | .ok (c, ls') =>
        .ok (⟨c, ls', st.sections ++ [sec], st.guides, st.counter + 1⟩, sec)

/-- The `xxxGiven` cardinality flags of the front-matter loop. -/
structure FMFlags where
  bibliographyGiven    : Bool := false
  acknowledgmentsGiven : Bool := false
  dedicationGiven      : Bool := false
  epigraphGiven        : Bool := false
  forewordGiven        : Bool := false
  introductionGiven    : Bool := false
  prefaceGiven         : Bool := false
  prologueGiven        : Bool := false
  deriving DecidableEq, Repr

/-- The marker line of a directive kind. -/
def directiveLine (k : String) : String := "<!--" ++ k ++ "-->"

/-- The front-matter loop (`loop1` of the main driver): dispatch on the
current line over the nine front-matter directives, enforcing the
at-most-once cardinality of all but `preamble`, and exit silently (without
consuming the line) on anything else.  The `fuel` argument only bounds the
number of iterations; the driver passes `rest.length + 1`, which can never
be exhausted since every iteration consumes at least two lines. -/
def loop1 : Nat → PState → FMFlags → Except PError PState
  | 0, _, _ => .error .unexpectedEndOfInput
  | fuel + 1, st, f =>
    if st.curr = "<!--bibliography-->" then
      if f.bibliographyGiven then .error (.duplicateDirective "bibliography")
      else
        match processSection "bibliography" (some "Bibliography") st with
        | .error e => .error e
        | .ok (st', _) => loop1 fuel st' { f with bibliographyGiven := true }
    else if st.curr = "<!--acknowledgments-->" then
      if f.acknowledgmentsGiven then .error (.duplicateDirective "acknowledgments")
      else
        match processSection "acknowledgments" (some "Acknowledgments") st with
        | .error e => .error e
        | .ok (st', _) => loop1 fuel st' { f with acknowledgmentsGiven := true }
    else if st.curr = "<!--dedication-->" then
      if f.dedicationGiven then .error (.duplicateDirective "dedication")
      else
        match processSection "dedication" (some "Dedication") st with
        | .error e => .error e
        | .ok (st', _) => loop1 fuel st' { f with dedicationGiven := true }
    else if st.curr = "<!--epigraph-->" then
      if f.epigraphGiven then .error (.duplicateDirective "epigraph")
      else
        match processSection "epigraph" (some "Epigraph") st with
        | .error e => .error e
        | .ok (st', _) => loop1 fuel st' { f with epigraphGiven := true }
    else if st.curr = "<!--foreword-->" then
      if f.forewordGiven then .error (.duplicateDirective "foreword")
      else
        match processSection "foreword" (some "Foreword") st with
        | .error e => .error e
        | .ok (st', _) => loop1 fuel st' { f with forewordGiven := true }
    else if st.curr = "<!--introduction-->" then
      if f.introductionGiven then .error (.duplicateDirective "introduction")
      else
        match processSection "introduction" (some "Introduction") st with
        | .error e => .error e
        | .ok (st', _) => loop1 fuel st' { f with introductionGiven := true }
    else if st.curr = "<!--preface-->" then
      if f.prefaceGiven then .error (.duplicateDirective "preface")
      else
        match processSection "preface" (some "Preface") st with
        | .error e => .error e
        | .ok (st', _) => loop1 fuel st' { f with prefaceGiven := true }
    else if st.curr = "<!--prologue-->" then
      if f.prologueGiven then .error (.duplicateDirective "prologue")
      else
        match processSection "prologue" (some "Prologue") st with
        | .error e => .error e
        | .ok (st', _) => loop1 fuel st' { f with prologueGiven := true }
    else if st.curr = "<!--preamble-->" then
      match processSection "preamble" (some "Preamble") st with
      | .error e => .error e
      | .ok (st', _) => loop1 fuel st' f
    else .ok st

/-- The body-matter loop (`loop2`): `part` and `chapter` directives, both
unbounded; the first produced section is appended to `guides`; exits
silently on anything else, returning the `firstBodymatter` flag. -/
def loop2 : Nat → PState → Bool → Except PError (PState × Bool)
  | 0, _, _ => .error .unexpectedEndOfInput
  | fuel + 1, st, firstBodymatter =>
    if st.curr = "<!--part-->" then
      match processSection "part" none st with
      | .error e => .error e
      | .ok (st', sec) =>
        let st'' := if firstBodymatter then
          { st' with guides := st'.guides ++ [sec] } else st'
        loop2 fuel st'' false
    else if st.curr = "<!--chapter-->" then
      match processSection "chapter" none st with
      | .error e => .error e
      | .ok (st', sec) =>
        let st'' := if firstBodymatter then
          { st' with guides := st'.guides ++ [sec] } else st'
        loop2 fuel st'' false
    else .ok (st, firstBodymatter)

/-- The back-matter loop (`loop3`): `afterword` and `epilogue` at most once,
`appendix` unbounded, `<!--end-->` terminates; unlike the two earlier loops,
any other line is the fatal `UnknownDirective` panic. -/
def loop3 : Nat → PState → Bool → Bool → Bool → Except PError PState
  | 0, _, _, _, _ => .error .unexpectedEndOfInput
  | fuel + 1, st, afterwordGiven, epilogueGiven, firstBackmatter =>
    if st.curr = "<!--afterword-->" then
      if afterwordGiven then .error (.duplicateDirective "afterword")
      else
        match processSection "afterword" (some "Afterword") st with
        | .error e => .error e
        | .ok (st', sec) =>
          let st'' := if firstBackmatter then
            { st' with guides := st'.guides ++ [sec] } else st'
          loop3 fuel st'' true epilogueGiven false
    else if st.curr = "<!--epilogue-->" then
      if epilogueGiven then .error (.duplicateDirective "epilogue")
      else
        match processSection "epilogue" (some "Epilogue") st with
        | .error e => .error e
        | .ok (st', sec) =>
          let st'' := if firstBackmatter then
            { st' with guides := st'.guides ++ [sec] } else st'
          loop3 fuel st'' afterwordGiven true false
    else if st.curr = "<!--appendix-->" then
      match processSection "appendix" (some "Appendix") st with
      | .error e => .error e
      | .ok (st', sec) =>
        let st'' := if firstBackmatter then
          { st' with guides := st'.guides ++ [sec] } else st'
        loop3 fuel st'' afterwordGiven epilogueGiven false
    else if st.curr = "<!--end-->" then .ok st
    else .error (.unknownDirective st.curr)

/-- The synthesized cover section of `GenCoverSection`. -/
def coverSection : SectionData := ⟨"cover", "cover", "Cover Page"⟩

/-- The synthesized title-page section of `GenTitlePageSection`. -/
def titlepageSection : SectionData := ⟨"titlepage", "titlepage", "Title Page"⟩

/-- The copyright section of `GenCopyrightSection`. -/
def copyrightSection : SectionData := ⟨"copyright", "copyright-page", "Copyright"⟩

/-- STEP 1, `GenCoverSection`: append the fixed cover section to `sections`
and `guides` (rendering is external). -/
def stepCover (st : PState) : PState :=
  { st with sections := st.sections ++ [coverSection],
            guides := st.guides ++ [coverSection] }

/-- The media-type extraction of the image branch of `GenTitlePageSection`:
`parts := strings.Split(titlePage, "."); mediaType := parts[1]` — the
indexing panics when the value contains no dot — then the extension check. -/
def titlePageImage (titlePage : String) : Except PError ImageData :=
  match (goSplitDot titlePage)[1]? with
  | none => .error .indexOutOfRange
  | some mediaType =>
    if mediaType ≠ "png" ∧ mediaType ≠ "jpeg" then .error .unsupportedImageExtension
    else .ok ⟨titlePage, mediaType⟩

/-- STEP 2, `GenTitlePageSection`: append the fixed title-page section, then
branch on the `titlepage` attribute: `default` renders externally; `custom`
requires the very next line to be the title-page directive and consumes the
lines of the custom page; any other value is an image file name. -/
def stepTitlePage (titlepageAttr : String) (st0 : PState) : Except PError PState :=
  let titlePage := if titlepageAttr = "" then "default" else titlepageAttr
  let st := { st0 with sections := st0.sections ++ [titlepageSection],
                       guides := st0.guides ++ [titlepageSection] }
  if titlePage = "default" then .ok st
  else if titlePage = "custom" then
    match st.rest with
    | [] => .error .unexpectedEndOfInput
    | l :: ls =>
      if l = "<!--titlepage-->" then
        match ls with
        | [] => .error .unexpectedEndOfInput
        | _ :: ls' =>
          match skipBody ls' with
          | .error e => .error e
          | .ok (c, ls'') => .ok { st with curr := c, rest := ls'' }
      else .error .titlePageDirectiveExpected
  else
    match titlePageImage titlePage with
    | .error e => .error e
    | .ok _ => .ok st

/-- STEP 3, `GenCopyrightSection`: the current line must be the copyright
directive; append the fixed copyright section (not a guide) and consume the
section body. -/
def stepCopyright (st : PState) : Except PError PState :=
  if st.curr = "<!--copyright-->" then
    match st.rest with
    | [] => .error .unexpectedEndOfInput
    | _ :: ls =>
      match skipBody ls with
      | .error e => .error e
      | .ok (c, ls') =>
        .ok { st with curr := c, rest := ls',
                      sections := st.sections ++ [copyrightSection] }
  else .error .copyrightDirectiveExpected

/-- The body-processing pipeline of the main driver (STEPs 1–6), entered
with the current line at the first directive after `<body>`:
cover, title page, copyright, front-matter loop, body-matter loop with the
`NoChapterSpecified` check, back-matter loop. -/
def runBody (titlepageAttr : String) (st0 : PState) : Except PError PState :=
  match stepTitlePage titlepageAttr (stepCover st0) with
  | .error e => .error e
  | .ok st1 =>
    match stepCopyright st1 with
    | .error e => .error e
    | .ok st2 =>
      match loop1 (st2.rest.length + 1) st2 {} with
      | .error e => .error e
      | .ok st3 =>
        match loop2 (st3.rest.length + 1) st3 true with
        | .error e => .error e
        | .ok (st4, firstBodymatter) =>
          if firstBodymatter then .error .noChapterSpecified
          else
            match loop3 (st4.rest.length + 1) st4 false false true with
            | .error e => .error e
            | .ok st5 => .ok st5

/-- The `CheckImageFiles` extension check for one comma-separated entry:
`strings.Cut` at the first dot and the media type must be `png` or `jpeg`. -/
def checkImageEntry (imageFile : String) : Except PError ImageData :=
  let mediaType := (goCut imageFile ".").2.1
  if mediaType ≠ "png" ∧ mediaType ≠ "jpeg" then .error .unsupportedImageExtension
  else .ok ⟨imageFile, mediaType⟩

/-- `CheckImageFiles` (`internal/gen/input_buffer.go`): an empty attribute is
accepted with no images recorded; otherwise every comma-separated entry must
pass the extension check, and accepted entries are recorded. -/
def checkImageFiles (value : String) : Except PError (List ImageData) :=
  if value = "" then .ok []
  else (goSplitComma value).mapM checkImageEntry

/-! ### Concrete documents and section sequences used by the claims -/

/-- Section sequence of Scenario A: a document whose body-matter directives
are `copyright, chapter, chapter, end` — the three fixed sections followed by
two chapters. -/
def scenarioASections : List SectionData :=
  [coverSection, titlepageSection, copyrightSection,
   ⟨"section001", "chapter", "One"⟩, ⟨"section002", "chapter", "Two"⟩]

/-- Section sequence of Scenario B: directives
`copyright, part, chapter, chapter, part, chapter, end`. -/
def scenarioBSections : List SectionData :=
  [coverSection, titlepageSection, copyrightSection,
   ⟨"section001", "part", "Part I"⟩,
   ⟨"section002", "chapter", "One"⟩, ⟨"section003", "chapter", "Two"⟩,
   ⟨"section004", "part", "Part II"⟩, ⟨"section005", "chapter", "Three"⟩]

/-- Line stream of a minimal accepted document: directives
`copyright, chapter, end` with one content line each. -/
def minimalStream : List String :=
  ["<p>c</p>", "<!--chapter-->", "<h1>One</h1>", "<p>text</p>", "<!--end-->"]

/-- Final parser state on the minimal document. -/
def minimalFinal : PState :=
  ⟨"<!--end-->", [],
   [coverSection, titlepageSection, copyrightSection,
    ⟨"section001", "chapter", "One"⟩],
   [coverSection, titlepageSection, ⟨"section001", "chapter", "One"⟩], 1⟩

/-- The notion of extension used by the claim: the suffix of a file name
after the last dot (used only to compare the code against the claim). -/
def specExtension (s : String) : String :=
  String.mk ((s.data.reverse.takeWhile (fun c => c ≠ '.')).reverse)

/-- The part of an images entry that, per the spec, the code checks:
everything after the first dot (used to characterise `goCut`). -/
def specAfterFirstDot (s : String) : String :=
  match s.data.dropWhile (fun c => c ≠ '.') with
  | [] => ""
  | _ :: rest => String.mk rest

/-- The second dot-component of a name per the amended cardinality of the
titlepage check: the segment strictly between the first dot and the second
dot (or the end of the name) — used to characterise `Split(".")[1]`. -/
def specSecondDotComponent (s : String) : String :=
  String.mk ((specAfterFirstDot s).data.takeWhile (fun c => c ≠ '.'))

/-! ### Claim theorems on the Section Partitioner -/

/-- C1: on the Scenario A section sequence (chapters only, no parts) the
Partitioner is claimed to yield an empty front list, the flat chapter list
`[chapter1, chapter2]` and an empty back list.  The code instead yields the
three fixed sections as the front list, an EMPTY flat chapter list — the
chapter-collecting loop `for ; sections[index].EpubType != "chapter"; index++
{ break }` never advances `index` — and both chapters in the back list. -/
theorem c1_flat_chapter_partition_bug :
    genNavPartition scenarioASections =
      some ⟨[coverSection, titlepageSection, copyrightSection], false, [], [],
            [⟨"section001", "chapter", "One"⟩, ⟨"section002", "chapter", "Two"⟩]⟩ := by
  rfl

/-- C2: on the Scenario B section sequence (two parts, final section a
chapter, no back matter) the Partitioner is claimed to yield the two part
groups `(part1 → [ch1, ch2]), (part2 → [ch3])`.  The parts loop only closes
the final group on a non-part/non-chapter section, so on Scenario B itself it
indexes one past the end of the slice (an index-out-of-range panic, `none`);
only with a trailing back-matter section does it produce the claimed
groups. -/
theorem c2_parts_partition_panics_without_backmatter :
    genNavPartition scenarioBSections = none ∧
    genNavPartition (scenarioBSections ++ [⟨"section006", "afterword", "Afterword"⟩]) =
      some ⟨[coverSection, titlepageSection, copyrightSection], true,
            [⟨⟨"section001", "part", "Part I"⟩,
              [⟨"section002", "chapter", "One"⟩, ⟨"section003", "chapter", "Two"⟩]⟩,
             ⟨⟨"section004", "part", "Part II"⟩, [⟨"section005", "chapter", "Three"⟩]⟩],
            [], [⟨"section006", "afterword", "Afterword"⟩]⟩ := by
  exact ⟨rfl, rfl⟩

/-- C3 counterexample: the line `<meta>` starts the meta pattern but has no
`name=` component, yet `LoadAttributes` accepts it silently and leaves the
attribute dictionary unchanged — it does not fail with the
malformed-metadata error as claimed. -/
theorem c3_missing_name_skipped_silently :
    loadAttributes ["<meta>", "</head>"] [] = .ok ([], []) ∧
    goHasPrefix "<meta>" "<meta" = true ∧
    goIndex "<meta>" "name=" = none := by
  exact ⟨rfl, rfl, rfl⟩

/-- C4 counterexample: after a `preface` directive with the sentinel heading
line `<h1>&#160;</h1>`, the Section stored in the sequence has heading
`"Preface"`, not `""` — the parser itself substitutes the default label
before constructing the Section. -/
theorem c4_preface_default_label_stored :
    loop1 2 ⟨"<!--preface-->", ["<h1>&#160;</h1>", "<p>x</p>", "<!--end-->"], [], [], 0⟩ {} =
      .ok ⟨"<!--end-->", [], [⟨"section001", "preface", "Preface"⟩], [], 1⟩ ∧
    ("Preface" : String) ≠ "" := by
  exact ⟨rfl, by decide⟩

/-- C5 counterexample: on a minimal accepted document the section-identifier
sequence is `cover, titlepage, copyright, section001` — the first three
created Sections carry fixed literal identifiers, not zero-padded running
numbers starting at 1. -/
theorem c5_fixed_ids_not_numbered :
    runBody "default" ⟨"<!--copyright-->", minimalStream, [], [], 0⟩ = .ok minimalFinal ∧
    minimalFinal.sections.map (fun s => s.ID) =
      ["cover", "titlepage", "copyright", "section001"] ∧
    ("cover" : String) ≠ "section001" := by
  exact ⟨rfl, rfl, by decide⟩

/-- C9 counterexample: the images entry `a.b.jpeg` has extension `jpeg` yet
`CheckImageFiles` rejects it (the code checks everything after the FIRST
dot), and a `titlepage` value with no dot fails with an index-out-of-range
panic, not the unsupported-image-extension error. -/
theorem c9_extension_check_not_on_extension :
    checkImageFiles "a.b.jpeg" = .error .unsupportedImageExtension ∧
    specExtension "a.b.jpeg" = "jpeg" ∧
    titlePageImage "frontcover" = .error .indexOutOfRange ∧
    PError.indexOutOfRange ≠ PError.unsupportedImageExtension := by
  exact ⟨rfl, rfl, rfl, by decide⟩

/-! ### Structural lemmas about the loops -/

/-- The nine front-matter directive kinds handled by `loop1`. -/
def fmKinds : List String :=
  ["bibliography", "acknowledgments", "dedication", "epigraph", "foreword",
   "introduction", "preface", "prologue", "preamble"]

/-- The body-matter kinds handled by `loop2`. -/
def bodyKinds : List String := ["part", "chapter"]

/-- The back-matter kinds handled by `loop3`. -/
def backKinds : List String := ["afterword", "epilogue", "appendix"]

/-- All directive-built section kinds. -/
def allKinds : List String := fmKinds ++ bodyKinds ++ backKinds

/-- The at-most-once directive kinds named by the cardinality claim. -/
def atMostOnceKinds : List String :=
  ["bibliography", "acknowledgments", "dedication", "epigraph", "foreword",
   "introduction", "preface", "prologue", "afterword", "epilogue"]

theorem skipBody_suffix :
    ∀ {ls : List String} {c : String} {ls' : List String},
      skipBody ls = .ok (c, ls') → (c :: ls') <:+ ls := by
  intro ls
  induction ls with
  | nil => intro c ls' h; simp [skipBody] at h
  | cons l ls ih =>
    intro c ls' h
    by_cases hp : goHasPrefix l "<!--"
    · simp [skipBody, hp] at h
      obtain ⟨h1, h2⟩ := h
      subst h1; subst h2
      exact List.suffix_refl _
    · simp [skipBody, hp] at h
      exact (ih h).trans (List.suffix_cons l ls)

theorem processSection_spec {k : String} {dh : Option String} {st st' : PState}
    {sec : SectionData} (h : processSection k dh st = .ok (st', sec)) :
    st'.sections = st.sections ++ [sec] ∧
    sec.ID = "section" ++ pad3 (st.counter + 1) ∧
    sec.EpubType = k ∧
    st'.counter = st.counter + 1 ∧
    st'.guides = st.guides ∧
    (st'.curr :: st'.rest) <:+ st.rest := by
  unfold processSection at h
  cases hr : st.rest with
  | nil => rw [hr] at h; simp at h
  | cons hl ls =>
    rw [hr] at h
    dsimp only at h
    cases he : extractHeading hl with
    | none => rw [he] at h; simp at h
    | some h0 =>
      rw [he] at h
      cases hs : skipBody ls with
      | error e => rw [hs] at h; simp at h
      | ok p =>
        obtain ⟨c, ls'⟩ := p
        rw [hs] at h
        simp only [Except.ok.injEq, Prod.mk.injEq] at h
        obtain ⟨h1, h2⟩ := h
        subst h1; subst h2
        refine ⟨rfl, rfl, rfl, rfl, rfl, ?_⟩
        exact (skipBody_suffix hs).trans (List.suffix_cons hl ls)

/-- Invariant relating the entry and exit states of a loop: the exit state extends
the sections by a block of freshly numbered sections whose kinds lie in `K`
and whose directive lines occur in the entry line stream, and the exit line
stream is a suffix of the entry stream.  (Guides are not tracked.) -/
def MasterFacts (K : List String) (st st' : PState) : Prop :=
  ∃ new : List SectionData,
    st'.sections = st.sections ++ new ∧
    st'.counter = st.counter + new.length ∧
    new.map (fun s => s.ID) =
      (List.range new.length).map (fun i => "section" ++ pad3 (st.counter + 1 + i)) ∧
    (∀ s ∈ new, s.EpubType ∈ K ∧ directiveLine s.EpubType ∈ st.curr :: st.rest) ∧
    (st'.curr :: st'.rest) <:+ (st.curr :: st.rest)

theorem masterFacts_refl (K : List String) (st : PState) : MasterFacts K st st :=
  ⟨[], by simp, by simp, by simp, by simp, List.suffix_refl _⟩

theorem masterFacts_step {K : List String} {k : String} {dh : Option String}
    {st st₁ st₂ st' : PState} {sec : SectionData}
    (hk : k ∈ K) (hcur : st.curr = directiveLine k)
    (hps : processSection k dh st = .ok (st₁, sec))
    (hc : st₂.curr = st₁.curr) (hr : st₂.rest = st₁.rest)
    (hs : st₂.sections = st₁.sections) (hn : st₂.counter = st₁.counter)
    (h2 : MasterFacts K st₂ st') :
    MasterFacts K st st' := by
  obtain ⟨hsec, hid, hty, hcnt, _, hsuf⟩ := processSection_spec hps
  obtain ⟨new, e1, e2, e3, e4, e5⟩ := h2
  have hstream : (st₂.curr :: st₂.rest) <:+ (st.curr :: st.rest) := by
    rw [hc, hr]
    exact hsuf.trans (List.suffix_cons st.curr st.rest)
  refine ⟨sec :: new, ?_, ?_, ?_, ?_, ?_⟩
  · rw [e1, hs, hsec]; simp
  · rw [e2, hn, hcnt, List.length_cons]; ring
  · rw [List.map_cons, e3, hid, hn, hcnt, List.length_cons,
      List.range_succ_eq_map, List.map_cons, List.map_map]
    refine congrArg₂ _ (by simp) ?_
    apply List.map_congr_left
    intro i _
    simp only [Function.comp_apply, Nat.succ_eq_add_one]
    congr 2
    omega
  · intro s hmem
    rcases List.mem_cons.mp hmem with h | h
    · subst h
      exact ⟨hty ▸ hk, by rw [hty, ← hcur]; exact List.mem_cons_self _ _⟩
    · obtain ⟨hK, hdir⟩ := e4 s h
      exact ⟨hK, hstream.subset hdir⟩
  · exact e5.trans hstream

theorem masterFacts_trans {K₁ K₂ K : List String} {st1 st2 st3 : PState}
    (hsub1 : ∀ k ∈ K₁, k ∈ K) (hsub2 : ∀ k ∈ K₂, k ∈ K)
    (h1 : MasterFacts K₁ st1 st2) (h2 : MasterFacts K₂ st2 st3) :
    MasterFacts K st1 st3 := by
  obtain ⟨n1, a1, a2, a3, a4, a5⟩ := h1
  obtain ⟨n2, b1, b2, b3, b4, b5⟩ := h2
  refine ⟨n1 ++ n2, ?_, ?_, ?_, ?_, ?_⟩
  · rw [b1, a1, List.append_assoc]
  · rw [b2, a2, List.length_append]; ring
  · rw [List.map_append, a3, b3, a2, List.length_append, List.range_add,
      List.map_append, List.map_map]
    refine congrArg₂ _ rfl ?_
    apply List.map_congr_left
    intro i _
    simp only [Function.comp_apply]
    congr 2
    omega
  · intro s hmem
    rcases List.mem_append.mp hmem with h | h
    · obtain ⟨hK, hdir⟩ := a4 s h
      exact ⟨hsub1 _ hK, hdir⟩
    · obtain ⟨hK, hdir⟩ := b4 s h
      exact ⟨hsub2 _ hK, a5.subset hdir⟩
  · exact b5.trans a5

theorem loop1_master :
    ∀ (fuel : Nat) (st : PState) (f : FMFlags) (st' : PState),
      loop1 fuel st f = .ok st' → MasterFacts fmKinds st st' := by
  intro fuel
  induction fuel with
  | zero => intro st f st' h; simp [loop1] at h
  | succ n ih =>
    intro st f st' h
    simp only [loop1] at h
    split at h
    · next hcur =>
      split at h
      · exact absurd h (by simp)
      · cases hps : processSection "bibliography" (some "Bibliography") st with
        | error e => rw [hps] at h; exact absurd h (by simp)
        | ok p =>
          obtain ⟨st₁, sec⟩ := p
          rw [hps] at h
          exact masterFacts_step (by decide) (hcur.trans (by decide)) hps
            rfl rfl rfl rfl (ih _ _ _ h)
    split at h
    · next hcur =>
      split at h
      · exact absurd h (by simp)
      · cases hps : processSection "acknowledgments" (some "Acknowledgments") st with
        | error e => rw [hps] at h; exact absurd h (by simp)
        | ok p =>
          obtain ⟨st₁, sec⟩ := p
          rw [hps] at h
          exact masterFacts_step (by decide) (hcur.trans (by decide)) hps
            rfl rfl rfl rfl (ih _ _ _ h)
    split at h
    · next hcur =>
      split at h
      · exact absurd h (by simp)
      · cases hps : processSection "dedication" (some "Dedication") st with
        | error e => rw [hps] at h; exact absurd h (by simp)
        | ok p =>
          obtain ⟨st₁, sec⟩ := p
          rw [hps] at h
          exact masterFacts_step (by decide) (hcur.trans (by decide)) hps
            rfl rfl rfl rfl (ih _ _ _ h)
    split at h
    · next hcur =>
      split at h
      · exact absurd h (by simp)
      · cases hps : processSection "epigraph" (some "Epigraph") st with
        | error e => rw [hps] at h; exact absurd h (by simp)
        | ok p =>
          obtain ⟨st₁, sec⟩ := p
          rw [hps] at h
          exact masterFacts_step (by decide) (hcur.trans (by decide)) hps
            rfl rfl rfl rfl (ih _ _ _ h)
    split at h
    · next hcur =>
      split at h
      · exact absurd h (by simp)
      · cases hps : processSection "foreword" (some "Foreword") st with
        | error e => rw [hps] at h; exact absurd h (by simp)
        | ok p =>
          obtain ⟨st₁, sec⟩ := p
          rw [hps] at h
          exact masterFacts_step (by decide) (hcur.trans (by decide)) hps
            rfl rfl rfl rfl (ih _ _ _ h)
    split at h
    · next hcur =>
      split at h
      · exact absurd h (by simp)
      · cases hps : processSection "introduction" (some "Introduction") st with
        | error e => rw [hps] at h; exact absurd h (by simp)
        | ok p =>
          obtain ⟨st₁, sec⟩ := p
          rw [hps] at h
          exact masterFacts_step (by decide) (hcur.trans (by decide)) hps
            rfl rfl rfl rfl (ih _ _ _ h)
    split at h
    · next hcur =>
      split at h
      · exact absurd h (by simp)
      · cases hps : processSection "preface" (some "Preface") st with
        | error e => rw [hps] at h; exact absurd h (by simp)
        | ok p =>
          obtain ⟨st₁, sec⟩ := p
          rw [hps] at h
          exact masterFacts_step (by decide) (hcur.trans (by decide)) hps
            rfl rfl rfl rfl (ih _ _ _ h)
    split at h
    · next hcur =>
      split at h
      · exact absurd h (by simp)
      · cases hps : processSection "prologue" (some "Prologue") st with
        | error e => rw [hps] at h; exact absurd h (by simp)
        | ok p =>
          obtain ⟨st₁, sec⟩ := p
          rw [hps] at h
          exact masterFacts_step (by decide) (hcur.trans (by decide)) hps
            rfl rfl rfl rfl (ih _ _ _ h)
    split at h
    · next hcur =>
      cases hps : processSection "preamble" (some "Preamble") st with
      | error e => rw [hps] at h; exact absurd h (by simp)
      | ok p =>
        obtain ⟨st₁, sec⟩ := p
        rw [hps] at h
        exact masterFacts_step (by decide) (hcur.trans (by decide)) hps
          rfl rfl rfl rfl (ih _ _ _ h)
    · simp only [Except.ok.injEq] at h
      subst h
      exact masterFacts_refl _ _

theorem loop2_master :
    ∀ (fuel : Nat) (st : PState) (fb : Bool) (st' : PState) (fb' : Bool),
      loop2 fuel st fb = .ok (st', fb') → MasterFacts bodyKinds st st' := by
  intro fuel
  induction fuel with
  | zero => intro st fb st' fb' h; simp [loop2] at h
  | succ n ih =>
    intro st fb st' fb' h
    simp only [loop2] at h
    split at h
    · next hcur =>
      cases hps : processSection "part" none st with
      | error e => rw [hps] at h; exact absurd h (by simp)
      | ok p =>
        obtain ⟨st₁, sec⟩ := p
        rw [hps] at h
        cases fb with
        | true =>
          simp only [if_true] at h
          refine masterFacts_step (by decide) (hcur.trans (by decide)) hps
            ?_ ?_ ?_ ?_ (ih _ _ _ _ h) <;> rfl
        | false =>
          simp only [Bool.false_eq_true, if_false] at h
          refine masterFacts_step (by decide) (hcur.trans (by decide)) hps
            ?_ ?_ ?_ ?_ (ih _ _ _ _ h) <;> rfl
    split at h
    · next hcur =>
      cases hps : processSection "chapter" none st with
      | error e => rw [hps] at h; exact absurd h (by simp)
      | ok p =>
        obtain ⟨st₁, sec⟩ := p
        rw [hps] at h
        cases fb with
        | true =>
          simp only [if_true] at h
          refine masterFacts_step (by decide) (hcur.trans (by decide)) hps
            ?_ ?_ ?_ ?_ (ih _ _ _ _ h) <;> rfl
        | false =>
          simp only [Bool.false_eq_true, if_false] at h
          refine masterFacts_step (by decide) (hcur.trans (by decide)) hps
            ?_ ?_ ?_ ?_ (ih _ _ _ _ h) <;> rfl
    · simp only [Except.ok.injEq, Prod.mk.injEq] at h
      obtain ⟨h1, _⟩ := h
      subst h1
      exact masterFacts_refl _ _

theorem loop3_master :
    ∀ (fuel : Nat) (st : PState) (a e fb : Bool) (st' : PState),
      loop3 fuel st a e fb = .ok st' → MasterFacts backKinds st st' := by
  intro fuel
  induction fuel with
  | zero => intro st a e fb st' h; simp [loop3] at h
  | succ n ih =>
    intro st a e fb st' h
    simp only [loop3] at h
    split at h
    · next hcur =>
      split at h
      · exact absurd h (by simp)
      · cases hps : processSection "afterword" (some "Afterword") st with
        | error e => rw [hps] at h; exact absurd h (by simp)
        | ok p =>
          obtain ⟨st₁, sec⟩ := p
          rw [hps] at h
          cases fb with
          | true =>
            simp only [if_true] at h
            refine masterFacts_step (by decide) (hcur.trans (by decide)) hps
              ?_ ?_ ?_ ?_ (ih _ _ _ _ _ h) <;> rfl
          | false =>
            simp only [Bool.false_eq_true, if_false] at h
            refine masterFacts_step (by decide) (hcur.trans (by decide)) hps
              ?_ ?_ ?_ ?_ (ih _ _ _ _ _ h) <;> rfl
    split at h
    · next hcur =>
      split at h
      · exact absurd h (by simp)
      · cases hps : processSection "epilogue" (some "Epilogue") st with
        | error e => rw [hps] at h; exact absurd h (by simp)
        | ok p =>
          obtain ⟨st₁, sec⟩ := p
          rw [hps] at h
          cases fb with
          | true =>
            simp only [if_true] at h
            refine masterFacts_step (by decide) (hcur.trans (by decide)) hps
              ?_ ?_ ?_ ?_ (ih _ _ _ _ _ h) <;> rfl
          | false =>
            simp only [Bool.false_eq_true, if_false] at h
            refine masterFacts_step (by decide) (hcur.trans (by decide)) hps
              ?_ ?_ ?_ ?_ (ih _ _ _ _ _ h) <;> rfl
    split at h
    · next hcur =>
      cases hps : processSection "appendix" (some "Appendix") st with
      | error e => rw [hps] at h; exact absurd h (by simp)
      | ok p =>
        obtain ⟨st₁, sec⟩ := p
        rw [hps] at h
        cases fb with
        | true =>
          simp only [if_true] at h
          refine masterFacts_step (by decide) (hcur.trans (by decide)) hps
            ?_ ?_ ?_ ?_ (ih _ _ _ _ _ h) <;> rfl
        | false =>
          simp only [Bool.false_eq_true, if_false] at h
          refine masterFacts_step (by decide) (hcur.trans (by decide)) hps
            ?_ ?_ ?_ ?_ (ih _ _ _ _ _ h) <;> rfl
    split at h
    · simp only [Except.ok.injEq] at h
      subst h
      exact masterFacts_refl _ _
    · exact absurd h (by simp)

theorem stepTitlePage_spec {a : String} {st st' : PState}
    (h : stepTitlePage a st = .ok st') :
    st'.sections = st.sections ++ [titlepageSection] ∧
    st'.counter = st.counter ∧
    (st'.curr :: st'.rest) <:+ (st.curr :: st.rest) := by
  unfold stepTitlePage at h
  generalize (if a = "" then "default" else a) = tp at h
  dsimp only at h
  split at h
  · simp only [Except.ok.injEq] at h
    subst h
    exact ⟨rfl, rfl, List.suffix_refl _⟩
  split at h
  · cases hr : st.rest with
    | nil =>
      rw [hr] at h; exact absurd h (by simp)
    | cons l ls =>
      rw [hr] at h
      dsimp only at h
      split at h
      · cases ls with
        | nil => exact absurd h (by simp)
        | cons l2 ls' =>
          dsimp only at h
          cases hs : skipBody ls' with
          | error e => rw [hs] at h; exact absurd h (by simp)
          | ok p =>
            obtain ⟨cc, lss⟩ := p
            rw [hs] at h
            simp only [Except.ok.injEq] at h
            subst h
            refine ⟨rfl, rfl, ?_⟩
            have h1 : (cc :: lss) <:+ ls' := skipBody_suffix hs
            exact (((h1.trans (List.suffix_cons l2 ls')).trans
              (List.suffix_cons l (l2 :: ls'))).trans
              (List.suffix_cons st.curr (l :: l2 :: ls')))
      · exact absurd h (by simp)
  · cases hi : titlePageImage tp with
    | error e => rw [hi] at h; exact absurd h (by simp)
    | ok img =>
      rw [hi] at h
      simp only [Except.ok.injEq] at h
      subst h
      exact ⟨rfl, rfl, List.suffix_refl _⟩

theorem stepCopyright_spec {st st' : PState}
    (h : stepCopyright st = .ok st') :
    st'.sections = st.sections ++ [copyrightSection] ∧
    st'.counter = st.counter ∧
    (st'.curr :: st'.rest) <:+ (st.curr :: st.rest) := by
  unfold stepCopyright at h
  split at h
  · cases hr : st.rest with
    | nil => rw [hr] at h; exact absurd h (by simp)
    | cons l ls =>
      rw [hr] at h
      dsimp only at h
      cases hs : skipBody ls with
      | error e => rw [hs] at h; exact absurd h (by simp)
      | ok p =>
        obtain ⟨cc, lss⟩ := p
        rw [hs] at h
        simp only [Except.ok.injEq] at h
        subst h
        refine ⟨rfl, rfl, ?_⟩
        have h1 : (cc :: lss) <:+ ls := skipBody_suffix hs
        exact ((h1.trans (List.suffix_cons l ls)).trans
          (List.suffix_cons st.curr (l :: ls)))
  · exact absurd h (by simp)

theorem runBody_master {a : String} {st0 st' : PState}
    (h : runBody a st0 = .ok st') :
    ∃ new : List SectionData,
      st'.sections =
        st0.sections ++ [coverSection, titlepageSection, copyrightSection] ++ new ∧
      st'.counter = st0.counter + new.length ∧
      new.map (fun s => s.ID) =
        (List.range new.length).map (fun i => "section" ++ pad3 (st0.counter + 1 + i)) ∧
      ∀ s ∈ new, s.EpubType ∈ allKinds ∧
        directiveLine s.EpubType ∈ st0.curr :: st0.rest := by
  unfold runBody at h
  cases h1 : stepTitlePage a (stepCover st0) with
  | error e => rw [h1] at h; exact absurd h (by simp)
  | ok st1 =>
    rw [h1] at h
    dsimp only at h
    cases h2 : stepCopyright st1 with
    | error e => rw [h2] at h; exact absurd h (by simp)
    | ok st2 =>
      rw [h2] at h
      dsimp only at h
      cases h3 : loop1 (st2.rest.length + 1) st2 {} with
      | error e => rw [h3] at h; exact absurd h (by simp)
      | ok st3 =>
        rw [h3] at h
        dsimp only at h
        cases h4 : loop2 (st3.rest.length + 1) st3 true with
        | error e => rw [h4] at h; exact absurd h (by simp)
        | ok p =>
          obtain ⟨st4, fb⟩ := p
          rw [h4] at h
          dsimp only at h
          split at h
          · exact absurd h (by simp)
          · cases h5 : loop3 (st4.rest.length + 1) st4 false false true with
            | error e => rw [h5] at h; exact absurd h (by simp)
            | ok st5 =>
              rw [h5] at h
              simp only [Except.ok.injEq] at h
              subst h
              obtain ⟨t1, t2, t3⟩ := stepTitlePage_spec h1
              obtain ⟨c1, c2, c3⟩ := stepCopyright_spec h2
              have m12 : MasterFacts allKinds st2 st4 :=
                masterFacts_trans (by decide) (by decide)
                  (loop1_master _ _ _ _ h3) (loop2_master _ _ _ _ _ h4)
              have mAll : MasterFacts allKinds st2 st5 :=
                masterFacts_trans (fun k hk => hk) (by decide)
                  m12 (loop3_master _ _ _ _ _ _ h5)
              obtain ⟨new, e1, e2, e3, e4, _⟩ := mAll
              have hsec2 : st2.sections =
                  st0.sections ++ [coverSection, titlepageSection, copyrightSection] := by
                rw [c1, t1]
                show (stepCover st0).sections ++ _ ++ _ = _
                unfold stepCover
                simp
              have hcnt2 : st2.counter = st0.counter := by
                rw [c2, t2]
                rfl
              have hstream2 : (st2.curr :: st2.rest) <:+ (st0.curr :: st0.rest) := by
                refine c3.trans (t3.trans ?_)
                show ((stepCover st0).curr :: (stepCover st0).rest) <:+ _
                exact List.suffix_refl _
              refine ⟨new, ?_, ?_, ?_, ?_⟩
              · rw [e1, hsec2]
              · rw [e2, hcnt2]
              · rw [e3, hcnt2]
              · intro s hmem
                obtain ⟨hK, hdir⟩ := e4 s hmem
                exact ⟨hK, hstream2.subset hdir⟩

/-! ### Claim theorems on the structural state machine -/

/-- C5 (amended): on every accepted run the identifier sequence is the three
fixed literals `cover`, `titlepage`, `copyright` followed by the running
numbers `section001, section002, …` — consecutive zero-padded integers
starting at 1, with no gaps, in document order (hence strictly increasing
and unique among the numbered sections). -/
theorem c5_running_ids_after_fixed_sections (a c : String) (rest : List String)
    (st' : PState) (h : runBody a ⟨c, rest, [], [], 0⟩ = .ok st') :
    st'.sections.map (fun s => s.ID) =
      "cover" :: "titlepage" :: "copyright" ::
        (List.range st'.counter).map (fun i => "section" ++ pad3 (i + 1)) := by
  obtain ⟨new, h1, h2, h3, _⟩ := runBody_master h
  dsimp only at h1 h2 h3
  have hc : st'.counter = new.length := by rw [h2]; exact Nat.zero_add _
  rw [h1, hc]
  simp only [List.nil_append, List.cons_append, List.map_cons, coverSection,
    titlepageSection, copyrightSection]
  rw [h3]
  refine congrArg₂ _ rfl (congrArg₂ _ rfl (congrArg₂ _ rfl ?_))
  apply List.map_congr_left
  intro i _
  congr 2
  omega

/-- Witness for the amended C5 theorem: the minimal accepted document. -/
theorem c5_running_ids_witness :
    minimalFinal.sections.map (fun s => s.ID) =
      "cover" :: "titlepage" :: "copyright" ::
        (List.range minimalFinal.counter).map (fun i => "section" ++ pad3 (i + 1)) :=
  c5_running_ids_after_fixed_sections "default" "<!--copyright-->" minimalStream
    minimalFinal rfl

/-- C6: every accepted run produces a non-empty section sequence beginning
with exactly one cover, one title-page and one copyright Section, in that
order, before any other Section (no later Section carries one of those three
kinds). -/
theorem c6_sections_start_cover_titlepage_copyright (a c : String)
    (rest : List String) (st' : PState)
    (h : runBody a ⟨c, rest, [], [], 0⟩ = .ok st') :
    ∃ tail : List SectionData,
      st'.sections = coverSection :: titlepageSection :: copyrightSection :: tail ∧
      ∀ s ∈ tail, s.EpubType ≠ "cover" ∧ s.EpubType ≠ "titlepage" ∧
        s.EpubType ≠ "copyright-page" := by
  obtain ⟨new, h1, _, _, h4⟩ := runBody_master h
  refine ⟨new, by simpa using h1, ?_⟩
  intro s hs
  obtain ⟨hK, _⟩ := h4 s hs
  have hall : ∀ x ∈ allKinds,
      x ≠ "cover" ∧ x ≠ "titlepage" ∧ x ≠ "copyright-page" := by decide
  exact hall _ hK

/-- Witness for C6: the minimal accepted document. -/
theorem c6_sections_start_witness :
    ∃ tail : List SectionData,
      minimalFinal.sections =
        coverSection :: titlepageSection :: copyrightSection :: tail ∧
      ∀ s ∈ tail, s.EpubType ≠ "cover" ∧ s.EpubType ≠ "titlepage" ∧
        s.EpubType ≠ "copyright-page" :=
  c6_sections_start_cover_titlepage_copyright "default" "<!--copyright-->"
    minimalStream minimalFinal rfl

/-- C7: cardinality of the at-most-once directive kinds.  First group of
conjuncts: with the `Given` flag of the kind set (the first occurrence has been
consumed), its directive as the current line fails immediately with
`DuplicateDirective` of that kind, whatever lines follow — nothing further
is consumed.  Then: the minimal document omitting all ten kinds is accepted
and produces no Section of any of those kinds; and on any accepted run, if
the directive of kind `k` never occurs in the line stream then no Section of
kind `k` is produced. -/
theorem c7_at_most_once_cardinality :
    (∀ (fuel : Nat) (st : PState) (f : FMFlags), f.bibliographyGiven = true →
      st.curr = "<!--bibliography-->" →
        loop1 (fuel + 1) st f = .error (.duplicateDirective "bibliography")) ∧
    (∀ (fuel : Nat) (st : PState) (f : FMFlags), f.acknowledgmentsGiven = true →
      st.curr = "<!--acknowledgments-->" →
        loop1 (fuel + 1) st f = .error (.duplicateDirective "acknowledgments")) ∧
    (∀ (fuel : Nat) (st : PState) (f : FMFlags), f.dedicationGiven = true →
      st.curr = "<!--dedication-->" →
        loop1 (fuel + 1) st f = .error (.duplicateDirective "dedication")) ∧
    (∀ (fuel : Nat) (st : PState) (f : FMFlags), f.epigraphGiven = true →
      st.curr = "<!--epigraph-->" →
        loop1 (fuel + 1) st f = .error (.duplicateDirective "epigraph")) ∧
    (∀ (fuel : Nat) (st : PState) (f : FMFlags), f.forewordGiven = true →
      st.curr = "<!--foreword-->" →
        loop1 (fuel + 1) st f = .error (.duplicateDirective "foreword")) ∧
    (∀ (fuel : Nat) (st : PState) (f : FMFlags), f.introductionGiven = true →
      st.curr = "<!--introduction-->" →
        loop1 (fuel + 1) st f = .error (.duplicateDirective "introduction")) ∧
    (∀ (fuel : Nat) (st : PState) (f : FMFlags), f.prefaceGiven = true →
      st.curr = "<!--preface-->" →
        loop1 (fuel + 1) st f = .error (.duplicateDirective "preface")) ∧
    (∀ (fuel : Nat) (st : PState) (f : FMFlags), f.prologueGiven = true →
      st.curr = "<!--prologue-->" →
        loop1 (fuel + 1) st f = .error (.duplicateDirective "prologue")) ∧
    (∀ (fuel : Nat) (st : PState) (e fb : Bool), st.curr = "<!--afterword-->" →
        loop3 (fuel + 1) st true e fb = .error (.duplicateDirective "afterword")) ∧
    (∀ (fuel : Nat) (st : PState) (a fb : Bool), st.curr = "<!--epilogue-->" →
        loop3 (fuel + 1) st a true fb = .error (.duplicateDirective "epilogue")) ∧
    (runBody "default" ⟨"<!--copyright-->", minimalStream, [], [], 0⟩ =
        .ok minimalFinal ∧
      ∀ k ∈ atMostOnceKinds, ∀ s ∈ minimalFinal.sections, s.EpubType ≠ k) ∧
    (∀ k ∈ atMostOnceKinds, ∀ (a c : String) (rest : List String) (st' : PState),
      runBody a ⟨c, rest, [], [], 0⟩ = .ok st' → directiveLine k ∉ c :: rest →
        ∀ s ∈ st'.sections, s.EpubType ≠ k) := by
  refine ⟨?_, ?_, ?_, ?_, ?_, ?_, ?_, ?_, ?_, ?_, ⟨rfl, by decide⟩, ?_⟩
  · intro fuel st f hf hc; simp [loop1, hc, hf]
  · intro fuel st f hf hc; simp [loop1, hc, hf]
  · intro fuel st f hf hc; simp [loop1, hc, hf]
  · intro fuel st f hf hc; simp [loop1, hc, hf]
  · intro fuel st f hf hc; simp [loop1, hc, hf]
  · intro fuel st f hf hc; simp [loop1, hc, hf]
  · intro fuel st f hf hc; simp [loop1, hc, hf]
  · intro fuel st f hf hc; simp [loop1, hc, hf]
  · intro fuel st e fb hc; simp [loop3, hc]
  · intro fuel st aa fb hc; simp [loop3, hc]
  · intro k hk a c rest st' h hnot s hmem heq
    obtain ⟨new, h1, _, _, h4⟩ := runBody_master h
    rw [h1] at hmem
    simp only [List.nil_append, List.cons_append, List.mem_cons,
      List.mem_append] at hmem
    have hfix : ∀ x ∈ atMostOnceKinds,
        "cover" ≠ x ∧ "titlepage" ≠ x ∧ "copyright-page" ≠ x := by decide
    rcases hmem with h' | h' | h' | h'
    · exact (hfix _ hk).1 (by rw [← heq, h']; rfl)
    · exact (hfix _ hk).2.1 (by rw [← heq, h']; rfl)
    · exact (hfix _ hk).2.2 (by rw [← heq, h']; rfl)
    · obtain ⟨_, hdir⟩ := h4 s h'
      rw [heq] at hdir
      exact hnot hdir

/-- Witness for C7: a duplicated `bibliography` directive fails at once, and
the minimal document omitting every at-most-once kind is accepted. -/
theorem c7_at_most_once_witness :
    loop1 1 ⟨"<!--bibliography-->", [], [], [], 0⟩
        ⟨true, false, false, false, false, false, false, false⟩ =
      .error (.duplicateDirective "bibliography") ∧
    (∀ s ∈ minimalFinal.sections, s.EpubType ≠ "bibliography") :=
  ⟨c7_at_most_once_cardinality.1 0 _ _ rfl rfl,
   (c7_at_most_once_cardinality.2.2.2.2.2.2.2.2.2.2.2) "bibliography" (by decide)
     "default" "<!--copyright-->" minimalStream minimalFinal rfl (by decide)⟩

/-- C8: in the back-matter loop every line that is not one of the afterword,
epilogue, appendix or end directives is an immediate fatal
`UnknownDirective`; the front-matter and body-matter loops instead exit
silently on an unrecognized line, leaving the state (and in particular the
unconsumed current line) untouched. -/
theorem c8_backmatter_unknown_directive_fatal :
    (∀ (fuel : Nat) (st : PState) (a e fb : Bool),
      st.curr ∉ ["<!--afterword-->", "<!--epilogue-->", "<!--appendix-->",
        "<!--end-->"] →
        loop3 (fuel + 1) st a e fb = .error (.unknownDirective st.curr)) ∧
    (∀ (fuel : Nat) (st : PState) (f : FMFlags),
      st.curr ∉ ["<!--bibliography-->", "<!--acknowledgments-->",
        "<!--dedication-->", "<!--epigraph-->", "<!--foreword-->",
        "<!--introduction-->", "<!--preface-->", "<!--prologue-->",
        "<!--preamble-->"] →
        loop1 (fuel + 1) st f = .ok st) ∧
    (∀ (fuel : Nat) (st : PState) (fb : Bool),
      st.curr ∉ ["<!--part-->", "<!--chapter-->"] →
        loop2 (fuel + 1) st fb = .ok (st, fb)) := by
  refine ⟨?_, ?_, ?_⟩
  · intro fuel st a e fb hn
    simp only [List.mem_cons, List.not_mem_nil, or_false, not_or] at hn
    obtain ⟨n1, n2, n3, n4⟩ := hn
    simp [loop3, n1, n2, n3, n4]
  · intro fuel st f hn
    simp only [List.mem_cons, List.not_mem_nil, or_false, not_or] at hn
    obtain ⟨n1, n2, n3, n4, n5, n6, n7, n8, n9⟩ := hn
    simp [loop1, n1, n2, n3, n4, n5, n6, n7, n8, n9]
  · intro fuel st fb hn
    simp only [List.mem_cons, List.not_mem_nil, or_false, not_or] at hn
    obtain ⟨n1, n2⟩ := hn
    simp [loop2, n1, n2]

/-- Witness for C8: the line `<!--unknown-->` where a back-matter directive
is expected is fatal, while the same line merely ends the front-matter and
body-matter loops. -/
theorem c8_backmatter_unknown_witness :
    loop3 1 ⟨"<!--unknown-->", [], [], [], 0⟩ false false true =
      .error (.unknownDirective "<!--unknown-->") ∧
    loop1 1 ⟨"<!--unknown-->", [], [], [], 0⟩ {} =
      .ok ⟨"<!--unknown-->", [], [], [], 0⟩ ∧
    loop2 1 ⟨"<!--unknown-->", [], [], [], 0⟩ true =
      .ok (⟨"<!--unknown-->", [], [], [], 0⟩, true) :=
  ⟨c8_backmatter_unknown_directive_fatal.1 0 _ false false true (by decide),
   c8_backmatter_unknown_directive_fatal.2.1 0 _ {} (by decide),
   c8_backmatter_unknown_directive_fatal.2.2 0 _ true (by decide)⟩

/-- C4 (amended): the sentinel heading line `<h1>&#160;</h1>` extracts to the
empty string, and the parser — not the renderer — substitutes the `preface`
default label of the directive before constructing the Section: the Section
stored for a preface with the sentinel heading carries heading `"Preface"`. -/
theorem c4_parser_substitutes_default_label :
    extractHeading "<h1>&#160;</h1>" = some "" ∧
    ∀ (st : PState) (ls : List String) (st' : PState) (sec : SectionData),
      st.rest = "<h1>&#160;</h1>" :: ls →
      processSection "preface" (some "Preface") st = .ok (st', sec) →
      sec.EpubType = "preface" ∧ sec.Heading = "Preface" := by
  refine ⟨rfl, ?_⟩
  intro st ls st' sec hr hps
  unfold processSection at hps
  rw [hr] at hps
  dsimp only at hps
  rw [show extractHeading "<h1>&#160;</h1>" = some "" from rfl] at hps
  dsimp only at hps
  cases hs : skipBody ls with
  | error e => rw [hs] at hps; exact absurd hps (by simp)
  | ok p =>
    obtain ⟨cc, lss⟩ := p
    rw [hs] at hps
    simp only [Except.ok.injEq, Prod.mk.injEq] at hps
    obtain ⟨_, h2⟩ := hps
    subst h2
    exact ⟨rfl, rfl⟩

/-- Witness for the amended C4 theorem at the preface step of a concrete
document. -/
theorem c4_parser_substitutes_witness :
    (⟨"section001", "preface", "Preface"⟩ : SectionData).EpubType = "preface" ∧
    (⟨"section001", "preface", "Preface"⟩ : SectionData).Heading = "Preface" :=
  c4_parser_substitutes_default_label.2
    ⟨"<!--preface-->", ["<h1>&#160;</h1>", "<p>x</p>", "<!--end-->"], [], [], 0⟩
    ["<p>x</p>", "<!--end-->"]
    ⟨"<!--end-->", [], [⟨"section001", "preface", "Preface"⟩], [], 1⟩
    ⟨"section001", "preface", "Preface"⟩ rfl rfl

theorem partsScanAux_all_body_none (l : List SectionData) :
    ∀ (rem : List SectionData) (i : Nat) (ft : Bool) (cp : SectionData)
      (si : Nat) (acc : List PartSectionData),
      rem = l.drop i →
      (∀ j, (hj : j < l.length) → i ≤ j →
        (l.get ⟨j, hj⟩).EpubType = "part" ∨ (l.get ⟨j, hj⟩).EpubType = "chapter") →
      partsScanAux l rem i ft cp si acc = none := by
  intro rem
  induction rem with
  | nil => intro i ft cp si acc hdrop hall; rfl
  | cons s rest ih =>
    intro i ft cp si acc hdrop hall
    have hlen : (l.drop i).length = rest.length + 1 := by
      rw [← hdrop]; rfl
    rw [List.length_drop] at hlen
    have hi : i < l.length := by omega
    have hcons : l.drop i = l.get ⟨i, hi⟩ :: l.drop (i + 1) := by
      rw [List.drop_eq_getElem_cons hi]; rfl
    rw [← hdrop] at hcons
    injection hcons with hs hrest
    have hall' : ∀ j, (hj : j < l.length) → i + 1 ≤ j →
        (l.get ⟨j, hj⟩).EpubType = "part" ∨ (l.get ⟨j, hj⟩).EpubType = "chapter" :=
      fun j hj hij => hall j hj (Nat.le_of_succ_le hij)
    rcases hall i hi (Nat.le_refl i) with hp | hc
    · rw [← hs] at hp
      simp only [partsScanAux, hp, if_pos]
      cases ft <;> simp <;> exact ih (i + 1) _ _ _ _ hrest hall'
    · rw [← hs] at hc
      by_cases hp : s.EpubType = "part"
      · simp only [partsScanAux, hp, if_pos]
        cases ft <;> simp <;> exact ih (i + 1) _ _ _ _ hrest hall'
      · simp only [partsScanAux, if_neg hp]
        have hnn : ¬ s.EpubType ≠ "chapter" := fun hne => hne hc
        rw [if_neg hnn]
        exact ih (i + 1) _ _ _ _ hrest hall'

/-- C10: the parts branch of the Partitioner only terminates on a section whose
kind is neither `part` nor `chapter`.  On any section sequence whose first
part-or-chapter section is a `part` (the branch is entered) and in which
every section from that point on is a `part` or a `chapter` — a document
with parts and no back-matter sections, so in particular the last element is
a part or chapter — the scan indexes one past the end of the sequence
instead of closing the final part group (an index-out-of-range panic,
modelled as `none`). -/
theorem c10_parts_branch_overruns_without_backmatter (l : List SectionData)
    (i : Nat) (s : SectionData) (hscan : rangeScan l = (i, s))
    (hpart : s.EpubType = "part")
    (hall : ∀ j, (hj : j < l.length) → i ≤ j →
      (l.get ⟨j, hj⟩).EpubType = "part" ∨ (l.get ⟨j, hj⟩).EpubType = "chapter") :
    genNavPartition l = none := by
  unfold genNavPartition
  rw [hscan]
  dsimp only
  rw [if_pos hpart,
    partsScanAux_all_body_none l (l.drop i) i true zeroSection 0 [] rfl hall]

/-- Witness for C10: a two-section sequence `part, chapter`. -/
theorem c10_parts_branch_overruns_witness :
    genNavPartition
      [⟨"section001", "part", "P"⟩, ⟨"section002", "chapter", "C"⟩] = none :=
  c10_parts_branch_overruns_without_backmatter _ 0 ⟨"section001", "part", "P"⟩
    rfl rfl (by decide)

/-- C3 (amended): a header line that is not a metadata declaration is
skipped silently with the dictionary unchanged, and so is a meta line whose
`name=` marker is entirely absent; the malformed-metadata failure occurs
exactly when `name=` is present but its closing quote is missing, or
`content=` is missing, or the closing quote of the content is missing (a marker
sitting at the very end of the line fails with a slice-bounds panic
instead). -/
theorem c3_metadata_error_only_with_name_marker :
    (∀ (line : String) (attrs : List (String × String)),
      goHasPrefix line "<meta" = false → metaStep line attrs = .ok attrs) ∧
    (∀ (line : String) (attrs : List (String × String)),
      goIndex line "name=" = none → metaStep line attrs = .ok attrs) ∧
    (∀ (line : String) (attrs : List (String × String)) (i : Nat)
      (nameRest : String),
      goHasPrefix line "<meta" = true →
      goIndex line "name=" = some i →
      goSliceFrom line (i + 6) = some nameRest →
      goIndex nameRest "\"" = none →
      metaStep line attrs = .error .malformedMetadata) ∧
    (∀ (line : String) (attrs : List (String × String)) (i j : Nat)
      (nameRest name : String),
      goHasPrefix line "<meta" = true →
      goIndex line "name=" = some i →
      goSliceFrom line (i + 6) = some nameRest →
      goIndex nameRest "\"" = some j →
      goSliceTo nameRest j = some name →
      goIndex line "content=" = none →
      metaStep line attrs = .error .malformedMetadata) ∧
    (∀ (line : String) (attrs : List (String × String)) (i j k : Nat)
      (nameRest name contentRest : String),
      goHasPrefix line "<meta" = true →
      goIndex line "name=" = some i →
      goSliceFrom line (i + 6) = some nameRest →
      goIndex nameRest "\"" = some j →
      goSliceTo nameRest j = some name →
      goIndex line "content=" = some k →
      goSliceFrom line (k + 9) = some contentRest →
      goIndex contentRest "\"" = none →
      metaStep line attrs = .error .malformedMetadata) := by
  refine ⟨?_, ?_, ?_, ?_, ?_⟩
  · intro line attrs hp
    simp [metaStep, hp]
  · intro line attrs hname
    by_cases hp : goHasPrefix line "<meta"
    · simp [metaStep, hp, hname]
    · simp [metaStep, hp]
  · intro line attrs i nameRest hp hname hslice hq
    simp [metaStep, hp, hname, hslice, hq]
  · intro line attrs i j nameRest name hp hname hslice hq hname2 hcontent
    simp [metaStep, hp, hname, hslice, hq, hname2, hcontent]
  · intro line attrs i j k nameRest name contentRest hp hname hslice hq hname2
      hcontent hslice2 hq2
    simp [metaStep, hp, hname, hslice, hq, hname2, hcontent, hslice2, hq2]

/-- Witness for the amended C3 theorem: a meta line with an unterminated name
component fails with the malformed-metadata error. -/
theorem c3_metadata_error_witness :
    metaStep "<meta name=abc>" [] = .error .malformedMetadata :=
  c3_metadata_error_only_with_name_marker.2.2.1 "<meta name=abc>" [] 6 "bc>"
    rfl rfl rfl rfl

theorem strFind_dot_drop (l : List Char) :
    (match strFind l ['.'] with
     | some i => l.drop (i + 1)
     | none => ([] : List Char)) =
    (match l.dropWhile (fun c => c ≠ '.') with
     | [] => ([] : List Char)
     | _ :: rest => rest) := by
  induction l with
  | nil => rfl
  | cons c rest ih =>
    by_cases hc : c = '.'
    · subst hc
      have hpre : List.isPrefixOf ['.'] ('.' :: rest) = true := by
        simp [List.isPrefixOf]
      simp [strFind, hpre, List.dropWhile]
    · have hpre : List.isPrefixOf ['.'] (c :: rest) = false := by
        simp only [List.isPrefixOf, Bool.and_eq_false_iff]
        exact Or.inl (by simp [beq_eq_false_iff_ne]; exact fun h => hc h.symm)
      rw [show (c :: rest).dropWhile (fun x => x ≠ '.') =
        rest.dropWhile (fun x => x ≠ '.') by simp [List.dropWhile, hc]]
      rw [← ih]
      simp only [strFind, hpre, Bool.false_eq_true, if_false]
      cases hf : strFind rest ['.'] with
      | none => rfl
      | some i => rfl

theorem goCut_dot_eq_specAfterFirstDot (f : String) :
    (goCut f ".").2.1 = specAfterFirstDot f := by
  have key := strFind_dot_drop f.data
  unfold goCut specAfterFirstDot
  rw [show ("." : String).data = ['.'] from rfl]
  cases hf : strFind f.data ['.'] with
  | none =>
    rw [hf] at key
    dsimp only at key
    dsimp only
    cases hd : f.data.dropWhile (fun c => c ≠ '.') with
    | nil => rfl
    | cons x rest =>
      rw [hd] at key
      dsimp only at key
      dsimp only
      rw [← key]
  | some i =>
    rw [hf] at key
    dsimp only at key
    dsimp only
    rw [show i + (['.'] : List Char).length = i + 1 from rfl]
    cases hd : f.data.dropWhile (fun c => c ≠ '.') with
    | nil =>
      rw [hd] at key
      dsimp only at key
      dsimp only
      rw [key]
    | cons x rest =>
      rw [hd] at key
      dsimp only at key
      dsimp only
      rw [key]

theorem splitOnChar_no_sep (sep : Char) :
    ∀ l : List Char, (∀ c ∈ l, c ≠ sep) → splitOnChar sep l = [l] := by
  intro l
  induction l with
  | nil => intro; rfl
  | cons c rest ih =>
    intro hall
    have hc : c ≠ sep := hall c (List.mem_cons_self _ _)
    have hrest := ih (fun x hx => hall x (List.mem_cons_of_mem _ hx))
    simp [splitOnChar, hrest, hc]

theorem splitOnChar_ne_nil (sep : Char) (l : List Char) :
    splitOnChar sep l ≠ [] := by
  induction l with
  | nil => simp [splitOnChar]
  | cons a rest ih =>
    simp only [splitOnChar]
    cases h : splitOnChar sep rest with
    | nil => simp
    | cons hd tl =>
      by_cases hac : a = sep
      · simp [hac]
      · simp [hac]

theorem splitOnChar_head (sep : Char) (l : List Char) :
    (splitOnChar sep l).head? = some (l.takeWhile (fun c => c ≠ sep)) := by
  induction l with
  | nil => rfl
  | cons a rest ih =>
    simp only [splitOnChar]
    cases h : splitOnChar sep rest with
    | nil => exact absurd h (splitOnChar_ne_nil sep rest)
    | cons hd tl =>
      rw [h] at ih
      have hhd : hd = rest.takeWhile (fun c => c ≠ sep) := by
        simpa using ih
      by_cases hac : a = sep
      · subst hac
        simp [List.takeWhile_cons]
      · simp [hac, List.takeWhile_cons, hhd]

theorem splitOnChar_second (sep : Char) (l : List Char) (h : sep ∈ l) :
    (splitOnChar sep l)[1]? =
      some (((l.dropWhile (fun c => c ≠ sep)).tail).takeWhile
        (fun c => c ≠ sep)) := by
  induction l with
  | nil => cases h
  | cons a rest ih =>
    simp only [splitOnChar]
    cases hs : splitOnChar sep rest with
    | nil => exact absurd hs (splitOnChar_ne_nil sep rest)
    | cons hd tl =>
      by_cases hac : a = sep
      · subst hac
        have hhead := splitOnChar_head a rest
        rw [hs] at hhead
        have hhd : hd = rest.takeWhile (fun c => c ≠ a) := by
          simpa using hhead
        simp [List.dropWhile_cons, hhd]
      · have hmem : sep ∈ rest := by
          rcases List.mem_cons.mp h with h' | h'
          · exact absurd h'.symm hac
          · exact h'
        have ih' := ih hmem
        rw [hs] at ih'
        simp only [List.getElem?_cons_succ, List.getElem?_cons_zero] at ih'
        simp [hac, List.dropWhile_cons, ih']

theorem goSplitDot_second (tp : String) (h : '.' ∈ tp.data) :
    (goSplitDot tp)[1]? = some (specSecondDotComponent tp) := by
  unfold goSplitDot specSecondDotComponent specAfterFirstDot
  rw [List.getElem?_map, splitOnChar_second '.' tp.data h]
  cases hd : tp.data.dropWhile (fun c => c ≠ '.') with
  | nil =>
    exfalso
    have hall := List.dropWhile_eq_nil_iff.mp hd '.' h
    simp at hall
  | cons x rest =>
    simp

/-- C9 (amended): each `images` entry is split at its FIRST dot and the
remainder must be exactly `png` or `jpeg`, else the unsupported-extension
error; accepted entries are recorded with that remainder as media type.  A
`titlepage` value that is neither `default` nor `custom` and contains no dot
fails with an index-out-of-range panic (`parts[1]`), not the
unsupported-extension error; when the value does contain a dot, its second
dot-component (the segment between the first dot and the next dot or the
end) must be exactly `png` or `jpeg`, else the unsupported-extension error,
and an accepted value is recorded with that component as media type. -/
theorem c9_media_type_is_after_first_dot :
    (∀ f : String, checkImageEntry f = .error .unsupportedImageExtension ↔
      (specAfterFirstDot f ≠ "png" ∧ specAfterFirstDot f ≠ "jpeg")) ∧
    (∀ f : String, specAfterFirstDot f = "png" ∨ specAfterFirstDot f = "jpeg" →
      checkImageEntry f = .ok ⟨f, specAfterFirstDot f⟩) ∧
    (∀ tp : String, (∀ ch ∈ tp.data, ch ≠ '.') →
      titlePageImage tp = .error .indexOutOfRange) ∧
    (∀ tp : String, '.' ∈ tp.data →
      (specSecondDotComponent tp ≠ "png" ∧ specSecondDotComponent tp ≠ "jpeg" →
        titlePageImage tp = .error .unsupportedImageExtension) ∧
      (specSecondDotComponent tp = "png" ∨ specSecondDotComponent tp = "jpeg" →
        titlePageImage tp = .ok ⟨tp, specSecondDotComponent tp⟩)) := by
  refine ⟨?_, ?_, ?_, ?_⟩
  · intro f
    unfold checkImageEntry
    rw [goCut_dot_eq_specAfterFirstDot]
    by_cases hcond : specAfterFirstDot f ≠ "png" ∧ specAfterFirstDot f ≠ "jpeg"
    · rw [if_pos hcond]
      exact ⟨fun _ => hcond, fun _ => rfl⟩
    · rw [if_neg hcond]
      exact ⟨fun hcontra => absurd hcontra (by simp), fun hh => absurd hh hcond⟩
  · intro f hf
    unfold checkImageEntry
    rw [goCut_dot_eq_specAfterFirstDot]
    rw [if_neg ?_]
    · intro hcond
      rcases hf with hh | hh
      · exact hcond.1 hh
      · exact hcond.2 hh
  · intro tp hall
    unfold titlePageImage goSplitDot
    rw [splitOnChar_no_sep '.' tp.data hall]
    rfl
  · intro tp hdot
    unfold titlePageImage
    rw [goSplitDot_second tp hdot]
    dsimp only
    constructor
    · intro hcond
      rw [if_pos hcond]
    · intro hok
      rw [if_neg ?_]
      intro hcond
      rcases hok with hh | hh
      · exact hcond.1 hh
      · exact hcond.2 hh

/-- Witness for the amended C9 theorem: `img.png` is accepted as an images
entry and recorded with media type `png`; a dotless titlepage value panics
with the index-out-of-range error; the dotted titlepage value `tp.png` is
accepted with media type `png` while `tp.gif` fails with the
unsupported-image-extension error. -/
theorem c9_media_type_witness :
    checkImageEntry "img.png" = .ok ⟨"img.png", "png"⟩ ∧
    titlePageImage "plaincover" = .error .indexOutOfRange ∧
    titlePageImage "tp.png" = .ok ⟨"tp.png", "png"⟩ ∧
    titlePageImage "tp.gif" = .error .unsupportedImageExtension :=
  ⟨c9_media_type_is_after_first_dot.2.1 "img.png" (Or.inl rfl),
   c9_media_type_is_after_first_dot.2.2.1 "plaincover" (by decide),
   (c9_media_type_is_after_first_dot.2.2.2 "tp.png" (by decide)).2 (Or.inl rfl),
   (c9_media_type_is_after_first_dot.2.2.2 "tp.gif" (by decide)).1 (by decide)⟩

end Ep3gen









